import Mathlib

/-!
Verification development for the lacosta product-catalog backend.

The definitions below are shallow embeddings of the TypeScript source files:
Express handlers become pure functions over explicit request data, the
Sequelize product table becomes a list of rows, bcrypt comparison and the
S3 URL signer become oracle parameters, and the process environment becomes
explicit arguments.
-/

namespace LaCosta

/-- JS truthiness of an optional string value (string or undefined): the
undefined value and the empty string are falsy, every other string is
truthy. -/
def strTruthy : Option String → Bool
  | none => false
  | some s => s != ""

/-- JS string defaulting idiom `v || d`: the default is taken when the
value is undefined or the empty string. -/
def jsOrDefault (v : Option String) (d : String) : String :=
  match v with
  | some s => if s = "" then d else s
  | none => d

/-- Checks whether the second list is a leading segment of the first
argument list order reversed: a leading-segment test used by the
substring search below. -/
def leadsWith : List Char → List Char → Bool
  | [], _ => true
  | _ :: _, [] => false
  | a :: as, b :: bs => a == b && leadsWith as bs

/-- Substring occurrence test on character lists: does the needle occur
contiguously inside the haystack. -/
def containsSeq (needle : List Char) : List Char → Bool
  | [] => needle.isEmpty
  | c :: rest => leadsWith needle (c :: rest) || containsSeq needle rest

/-- Substring test on strings, modelling the JS `String.includes` used in
the cookie-configuration helper. -/
def strIncludes (hay needle : String) : Bool :=
  containsSeq needle.toList hay.toList

/-! ## Access gate and authentication endpoints

Embeds src/middleware/auth.ts and the auth controller. The bcrypt
comparison is an oracle parameter: it may err (the callback error branch)
or answer whether the candidate matches the stored hash. Session cookie
and configured hash are optional strings, matching `string | undefined`
in the source; the source tests them with JS truthiness, so an empty
string behaves like an absent value there. -/

/-- Oracle type for bcrypt.compare: candidate, stored hash, and either an
error or the boolean match result delivered to the callback. -/
def BcryptCompare : Type := String → String → Except String Bool

/-- Result of running an Express middleware: either a JSON response with
an HTTP status, a success flag and a message, or passing control to the
next handler. -/
inductive GateOutcome where
  | respond (status : Nat) (success : Bool) (message : String)
  | proceed
deriving DecidableEq, Repr

/-- Shallow embedding of requireAuth from src/middleware/auth.ts: reject
401 without a truthy session cookie, respond 500 when the configured hash
is missing, 500 when bcrypt errs, 401 when the comparison fails, and call
the next handler when it succeeds. -/
def requireAuth (cmp : BcryptCompare) (authSession accessCodeHash : Option String) :
    GateOutcome :=
  match authSession with
  | none => .respond 401 false "No autorizado. Por favor, inicia sesión."
  | some sessionToken =>
    if sessionToken = "" then
      .respond 401 false "No autorizado. Por favor, inicia sesión."
    else
      match accessCodeHash with
      | none => .respond 500 false "Error de configuración del servidor"
      | some storedHash =>
        if storedHash = "" then
          .respond 500 false "Error de configuración del servidor"
        else
          match cmp sessionToken storedHash with
          | .error _ => .respond 500 false "Error al verificar autenticación"
          | .ok false =>
            .respond 401 false "Sesión inválida. Por favor, inicia sesión nuevamente."
          | .ok true => .proceed

/-- Body of the authentication-check endpoint response together with its
HTTP status. -/
structure CheckAuthBody where
  status : Nat
  success : Bool
  authenticated : Bool
deriving DecidableEq, Repr

/-- Shallow embedding of checkAuth from the auth controller: it always
answers 200, with authenticated true exactly on a truthy cookie that
verifies against a truthy configured hash; comparison errors and the
outer catch also produce authenticated false. -/
def checkAuth (cmp : BcryptCompare) (authSession accessCodeHash : Option String) :
    CheckAuthBody :=
  match authSession, accessCodeHash with
  | some sessionToken, some storedHash =>
    if sessionToken = "" || storedHash = "" then
      { status := 200, success := false, authenticated := false }
    else
      match cmp sessionToken storedHash with
      | .error _ => { status := 200, success := false, authenticated := false }
      | .ok false => { status := 200, success := false, authenticated := false }
      | .ok true => { status := 200, success := true, authenticated := true }
  | _, _ => { status := 200, success := false, authenticated := false }

/-! ## Cookie configuration

Embeds src/utils/cookieConfig.ts. The hostname extraction performed by
`new URL(url).hostname` (with its catch-all fallback) is a platform
facility and is passed in as an oracle `getDomain`. -/

/-- Cookie attribute set used by res.cookie and res.clearCookie. -/
structure CookieOptions where
  httpOnly : Bool
  secure : Bool
  sameSite : String
  path : String
  maxAge : Nat
deriving DecidableEq, Repr

/-- Environment variables read by the cookie-configuration helper. -/
structure CookieEnv where
  nodeEnv : Option String
  frontendUrl : Option String
  backendUrl : Option String

/-- Shallow embedding of getCookieConfig from src/utils/cookieConfig.ts. -/
def getCookieConfig (getDomain : String → String) (env : CookieEnv) : CookieOptions :=
  let isProduction := env.nodeEnv == some "production"
  let frontendUrl := jsOrDefault env.frontendUrl "http://localhost:3000"
  let backendUrl := jsOrDefault env.backendUrl "http://localhost:3001"
  let frontendDomain := getDomain frontendUrl
  let backendDomain := getDomain backendUrl
  let areDifferentDomains := frontendDomain != backendDomain
  let useCrossSite := isProduction &&
    (areDifferentDomains ||
      (!(strIncludes frontendUrl "localhost") && !(strIncludes backendUrl "localhost")))
  let sameSiteValue := if useCrossSite then "none" else "lax"
  let secureValue := if sameSiteValue = "none" then true else isProduction
  { httpOnly := true
    secure := secureValue
    sameSite := sameSiteValue
    path := "/"
    maxAge := 24 * 60 * 60 * 1000 }

/-- Attribute set with which the login endpoint (verifyAccessCode) sets
the auth_session cookie: it calls getCookieConfig and passes the result
to res.cookie. -/
def loginCookieOptions (getDomain : String → String) (env : CookieEnv) : CookieOptions :=
  getCookieConfig getDomain env

/-- Attribute set with which the logout endpoint clears the auth_session
cookie: it calls getCookieConfig and passes the result to
res.clearCookie. -/
def logoutClearOptions (getDomain : String → String) (env : CookieEnv) : CookieOptions :=
  getCookieConfig getDomain env

/-! ## Image URL issuer

Embeds getPresignedImageUrl from src/services/s3Service.ts. The object
store client and getSignedUrl are an oracle `sign` taking the bucket, the
key and the expiry, and either returning a URL or failing. -/

/-- Shallow embedding of getPresignedImageUrl: null on a falsy filename
or an unconfigured bucket, otherwise the signed URL for exactly the
filename as key, with every signing failure caught and turned into
null. -/
def getPresignedImageUrl (sign : String → String → Nat → Except String String)
    (bucketName : String) (imageFilename : Option String) (expiresIn : Nat) :
    Option String :=
  match imageFilename with
  | none => none
  | some f =>
    if f = "" || bucketName = "" then none
    else
      match sign bucketName f expiresIn with
      | .ok presignedUrl => some presignedUrl
      | .error _ => none

/-! ## Product rows

Embeds the Sequelize model from src/models/Product.ts. Columns declared
with allowNull true become optional strings; `available` is declared
allowNull false with defaultValue true, so a stored row always holds a
boolean there. -/

/-- A row of the products table, one field per column of the model. -/
structure Product where
  id : Nat
  ean : String
  name : Option String
  original_name : Option String
  brand : Option String
  page : Option String
  url : Option String
  description : Option String
  category : Option String
  type : Option String
  variety : Option String
  image_filename : Option String
  available : Bool
  comments : Option String
deriving DecidableEq, Repr

/-- Declared column options of the `available` column in Product.init:
allowNull false, defaultValue true. -/
structure BooleanColumnSpec where
  allowNull : Bool
  defaultValue : Option Bool
deriving DecidableEq, Repr

/-- The `available` column declaration from src/models/Product.ts. -/
def availableColumn : BooleanColumnSpec :=
  { allowNull := false, defaultValue := some true }

/-! ## Row ordering

Models the SQL `ORDER BY brand ASC, name ASC` of the list query and the
`ORDER BY ... ASC` of the grouped brand and category queries: character
code point comparison lifted lexicographically to strings, with NULL
sorting first, then lexicographically to the (brand, name) key. -/

/-- Three-way comparison of character lists by code points. -/
def cmpChars : List Char → List Char → Ordering
  | [], [] => .eq
  | [], _ :: _ => .lt
  | _ :: _, [] => .gt
  | a :: as, b :: bs =>
    if a.toNat < b.toNat then .lt
    else if b.toNat < a.toNat then .gt
    else cmpChars as bs

/-- Three-way comparison of strings. -/
def cmpStr (a b : String) : Ordering := cmpChars a.toList b.toList

/-- Three-way comparison of nullable strings, with NULL ordered before
every value as in ascending SQL order. -/
def cmpOptStr : Option String → Option String → Ordering
  | none, none => .eq
  | none, some _ => .lt
  | some _, none => .gt
  | some x, some y => cmpStr x y

/-- Comparison of product rows by the (brand, name) sort key of the list
query. -/
def productKeyCmp (p q : Product) : Ordering :=
  match cmpOptStr p.brand q.brand with
  | .lt => .lt
  | .gt => .gt
  | .eq => cmpOptStr p.name q.name

/-- The row order produced by `ORDER BY brand ASC, name ASC`. -/
def byBrandName (p q : Product) : Prop := productKeyCmp p q ≠ Ordering.gt

instance : DecidableRel byBrandName := fun p q => by
  unfold byBrandName; infer_instance

/-- The value order produced by `ORDER BY brand ASC` and
`ORDER BY category ASC` on the grouped queries. -/
def optValLe (a b : Option String) : Prop := cmpOptStr a b ≠ Ordering.gt

instance : DecidableRel optValLe := fun a b => by
  unfold optValLe; infer_instance

/-! ## List query

Embeds getAllProducts from src/controllers/productController.ts: the
dynamically built where clause, the fixed (brand asc, name asc) ordering,
the optional limit/offset pagination, the pre-pagination row count, and
the response envelope. The page and limit parameters are modelled after
the parse step, as optional naturals. -/

/-- ASCII lower-casing of one character, modelling the case folding of
the case-insensitive LIKE match. -/
def lowerChar (c : Char) : Char :=
  if 'A' ≤ c ∧ c ≤ 'Z' then Char.ofNat (c.toNat + 32) else c

/-- Lower-cased character list of a string. -/
def lowerStr (s : String) : List Char := s.toList.map lowerChar

/-- Case-insensitive LIKE match of a nullable column against the pattern
enclosed in percent signs: substring containment, false on NULL. -/
def likeContains (column : Option String) (term : String) : Bool :=
  match column with
  | none => false
  | some s => containsSeq (lowerStr term) (lowerStr s)

/-- Query-string parameters of the list endpoint. Page and limit are the
values after the parse step, restricted to queries where the supplied
text parses to a natural number. -/
structure ListQuery where
  brand : Option String
  category : Option String
  search : Option String
  available : Option String
  page : Option Nat
  limit : Option Nat
deriving DecidableEq, Repr

/-- Brand member of the where clause: added only when the brand parameter
is truthy and not the sentinel value, as an exact match. -/
def whereBrand (q : ListQuery) (p : Product) : Bool :=
  if strTruthy q.brand && (q.brand != some "all") then p.brand == q.brand else true

/-- Category member of the where clause, same shape as the brand one. -/
def whereCategory (q : ListQuery) (p : Product) : Bool :=
  if strTruthy q.category && (q.category != some "all") then
    p.category == q.category
  else true

/-- Availability member of the where clause: added when the parameter is
defined and not the sentinel, comparing the column against the result of
the string comparison with "true". -/
def whereAvailable (q : ListQuery) (p : Product) : Bool :=
  if q.available != none && q.available != some "all" then
    p.available == (q.available == some "true")
  else true

/-- Search member of the where clause: added on a truthy search term, as
the OR of case-insensitive LIKE matches over name, original_name, brand
and ean. -/
def whereSearch (q : ListQuery) (p : Product) : Bool :=
  if strTruthy q.search then
    let term := jsOrDefault q.search ""
    likeContains p.name term || likeContains p.original_name term ||
      likeContains p.brand term || likeContains (some p.ean) term
  else true

/-- The whole dynamically built where clause: conjunction of its four
optional members. -/
def matchesWhere (q : ListQuery) (p : Product) : Bool :=
  whereBrand q p && whereCategory q p && whereAvailable q p && whereSearch q p

/-- The fixed result ordering of the list query. -/
def sortRows (rows : List Product) : List Product :=
  List.insertionSort byBrandName rows

/-- Rows matching the where clause, ordered by (brand asc, name asc);
this is the result set before limit and offset are applied. -/
def selectedRows (db : List Product) (q : ListQuery) : List Product :=
  sortRows (db.filter (matchesWhere q))

/-- Result rows after the optional pagination: when both page and limit
are supplied the window of limit rows starting at offset
(page - 1) * limit, otherwise all selected rows. -/
def pagedRows (db : List Product) (q : ListQuery) : List Product :=
  match q.page, q.limit with
  | some pageNumber, some limitNumber =>
    ((selectedRows db q).drop ((pageNumber - 1) * limitNumber)).take limitNumber
  | _, _ => selectedRows db q

/-- The Product.count call issued before pagination is applied: the
number of rows matching the where clause. -/
def totalCount (db : List Product) (q : ListQuery) : Nat :=
  (db.filter (matchesWhere q)).length

/-- Per-row enrichment of the JSON payload with image_url: the issuer is
invoked on the stored image filename, or on the placeholder key when that
is falsy. -/
def withImageUrl (sign : String → Option String) (p : Product) :
    Product × Option String :=
  (p, sign (jsOrDefault p.image_filename "placeholder.webp"))

/-- The pagination block of a paginated list response. -/
structure Pagination where
  page : Nat
  limit : Nat
  total : Nat
  totalPages : Nat
deriving DecidableEq, Repr

/-- Envelope of the list response: success flag, enriched rows, count of
returned rows, and the pagination block when pagination was applied. -/
structure ProductsEnvelope where
  success : Bool
  data : List (Product × Option String)
  count : Nat
  pagination : Option Pagination
deriving DecidableEq, Repr

/-- Shallow embedding of the success path of getAllProducts. The
totalPages expression (total + limit - 1) / limit is the natural-number
form of the ceiling division the source computes with Math.ceil, equal to
it whenever limit is at least one. -/
def getAllProducts (sign : String → Option String) (db : List Product)
    (q : ListQuery) : ProductsEnvelope :=
  let productsWithUrls := (pagedRows db q).map (withImageUrl sign)
  { success := true
    data := productsWithUrls
    count := productsWithUrls.length
    pagination :=
      match q.page, q.limit with
      | some pageNumber, some limitNumber =>
        some { page := pageNumber
               limit := limitNumber
               total := totalCount db q
               totalPages := (totalCount db q + limitNumber - 1) / limitNumber }
      | _, _ => none }

/-- Envelope of the brands and categories responses: success flag and the
list of values. The source serialises only success and data, so the
optional count field of the JSON envelope is absent here. -/
structure ValuesEnvelope where
  success : Bool
  data : List (Option String)
  count : Option Nat
deriving DecidableEq, Repr

/-- Shallow embedding of getBrands: one row per distinct brand value,
ordered ascending, with no filtering of NULL or empty values. -/
def getBrands (db : List Product) : ValuesEnvelope :=
  let brandList := List.insertionSort optValLe (db.map (·.brand)).dedup
  { success := true, data := brandList, count := none }

/-- Shallow embedding of getCategories: one row per distinct category
value, ordered ascending, with falsy values removed by the Boolean
filter. -/
def getCategories (db : List Product) : ValuesEnvelope :=
  let categoryList :=
    (List.insertionSort optValLe (db.map (·.category)).dedup).filter strTruthy
  { success := true, data := categoryList, count := none }

/-! ## Row operations

Embeds findByPk plus the update-style handlers toggleAvailability,
updateComments, createProduct and updateProduct. The table is a list of
rows; a handler returns the new table and the JSON-serialised row, or an
error for the 404 and 400 responses. -/

/-- Primary-key lookup, modelling Product.findByPk. -/
def findByPk (db : List Product) (id : Nat) : Option Product :=
  db.find? (fun p => p.id == id)

/-- Persisting an updated row: the row with the given primary key is
replaced. -/
def updateRowById (db : List Product) (id : Nat) (updated : Product) :
    List Product :=
  db.map (fun p => if p.id == id then updated else p)

/-- Shallow embedding of toggleAvailability: 404 when the id is absent,
otherwise the stored boolean is negated and persisted and the updated row
is returned. -/
def toggleAvailability (db : List Product) (id : Nat) :
    Except String (List Product × Product) :=
  match findByPk db id with
  | none => .error "Producto no encontrado"
  | some product =>
    let newAvailability := !product.available
    let updated := { product with available := newAvailability }
    .ok (updateRowById db id updated, updated)

/-- Shallow embedding of updateComments: 404 when the id is absent;
otherwise the comments column is set to the request value when that is
truthy and to NULL otherwise (the `comments || null` normalisation). -/
def updateComments (db : List Product) (id : Nat) (comments : Option String) :
    Except String (List Product × Product) :=
  match findByPk db id with
  | none => .error "Producto no encontrado"
  | some product =>
    let newComments := if strTruthy comments then comments else none
    let updated := { product with comments := newComments }
    .ok (updateRowById db id updated, updated)

/-- Request body of a product create or update: every column optional,
absent fields left to defaults (create) or untouched (update). -/
structure ProductInput where
  ean : Option String
  name : Option String
  original_name : Option String
  brand : Option String
  page : Option String
  url : Option String
  description : Option String
  category : Option String
  type : Option String
  variety : Option String
  image_filename : Option String
  available : Option Bool
  comments : Option String
deriving DecidableEq, Repr

/-- Row built by Product.create for a validated input: supplied columns
are stored as given and the available column falls back to its declared
default when the field is omitted. -/
def buildRow (id : Nat) (inp : ProductInput) : Product :=
  { id := id
    ean := inp.ean.getD ""
    name := inp.name
    original_name := inp.original_name
    brand := inp.brand
    page := inp.page
    url := inp.url
    description := inp.description
    category := inp.category
    type := inp.type
    variety := inp.variety
    image_filename := inp.image_filename
    available := inp.available.getD true
    comments := inp.comments }

/-- Shallow embedding of createProduct: 400 when ean, name or brand is
falsy; 400 on a duplicate ean (the unique-constraint error); otherwise
the new row is appended with a fresh primary key. -/
def createProduct (db : List Product) (inp : ProductInput) :
    Except String (List Product × Product) :=
  if !(strTruthy inp.ean && strTruthy inp.name && strTruthy inp.brand) then
    .error "EAN, nombre y marca son campos requeridos"
  else if db.any (fun p => p.ean == inp.ean.getD "") then
    .error "Ya existe un producto con ese EAN"
  else
    let row := buildRow ((db.map (·.id)).foldr max 0 + 1) inp
    .ok (db ++ [row], row)

/-- Field-merge semantics of product.update(productData) in
updateProduct: supplied fields replace the stored ones, absent fields are
kept. -/
def updateRow (p : Product) (inp : ProductInput) : Product :=
  { id := p.id
    ean := inp.ean.getD p.ean
    name := match inp.name with | some s => some s | none => p.name
    original_name := match inp.original_name with | some s => some s | none => p.original_name
    brand := match inp.brand with | some s => some s | none => p.brand
    page := match inp.page with | some s => some s | none => p.page
    url := match inp.url with | some s => some s | none => p.url
    description := match inp.description with | some s => some s | none => p.description
    category := match inp.category with | some s => some s | none => p.category
    type := match inp.type with | some s => some s | none => p.type
    variety := match inp.variety with | some s => some s | none => p.variety
    image_filename := match inp.image_filename with | some s => some s | none => p.image_filename
    available := inp.available.getD p.available
    comments := match inp.comments with | some s => some s | none => p.comments }

/-! ## Claim-side filter predicate

The filter semantics as the specification words them: an intersection of
an exact brand match (skipped when the parameter is absent or the
sentinel), an exact category match (same rule), a boolean availability
match parsed from the tri-state input, and a case-insensitive substring
OR-match over name, original_name, brand and ean when a search term is
present. A parameter supplied as the empty string counts as absent, the
reading the source gives those words through JS truthiness. -/

/-- Claim-side brand conjunct. -/
def specBrand (q : ListQuery) (p : Product) : Bool :=
  match q.brand with
  | none => true
  | some s => if s = "" ∨ s = "all" then true else p.brand == some s

/-- Claim-side category conjunct. -/
def specCategory (q : ListQuery) (p : Product) : Bool :=
  match q.category with
  | none => true
  | some s => if s = "" ∨ s = "all" then true else p.category == some s

/-- Claim-side availability conjunct: absent or sentinel means no
constraint, the text "true" selects true, any other text selects
false. -/
def specAvailable (q : ListQuery) (p : Product) : Bool :=
  match q.available with
  | none => true
  | some s => if s = "all" then true else p.available == (s == "true")

/-- Claim-side search conjunct: with a search term present, at least one
of name, original_name, brand and ean contains it case-insensitively. -/
def specSearch (q : ListQuery) (p : Product) : Bool :=
  match q.search with
  | none => true
  | some s =>
    if s = "" then true
    else
      likeContains p.name s || likeContains p.original_name s ||
        likeContains p.brand s || likeContains (some p.ean) s

/-- Claim-side filter: the conjunction of the four conjuncts above. -/
def specMatches (q : ListQuery) (p : Product) : Bool :=
  specBrand q p && specCategory q p && specAvailable q p && specSearch q p

/-! ## Arithmetic and lookup helpers -/

/-- Ceiling division on naturals, the claim-side reading of the
Math.ceil(total / limit) computation. -/
def ceilDiv (a b : Nat) : Nat := a / b + (if a % b = 0 then 0 else 1)

/-! ## Concrete oracles and rows used by the closed witnesses -/

/-- Bcrypt oracle for concrete runs: the candidate matches exactly when
it equals the fixed access code. -/
def cmpFixed : BcryptCompare := fun candidate _storedHash => .ok (candidate == "codigo")

/-- Signer oracle modelling an unreachable object store: every signing
call fails. -/
def signUnreachable : String → String → Nat → Except String String :=
  fun _ _ _ => .error "network error"

/-- Image URL oracle for concrete list runs: resolves no image. -/
def signNone : String → Option String := fun _ => none

/-! ## Concrete rows and queries used by the closed witnesses -/

/-- A concrete product row with the given identity, ean, brand and
name. -/
def mkRow (id : Nat) (ean brand name : String) : Product :=
  { id := id, ean := ean, name := some name, original_name := none,
    brand := some brand, page := none, url := none, description := none,
    category := none, type := none, variety := none, image_filename := none,
    available := true, comments := none }

/-- A one-row table. -/
def dbOne : List Product := [mkRow 7 "770007" "BrandC" "z"]

/-- A two-row table with brands out of order. -/
def dbTwo : List Product := [mkRow 1 "770001" "BrandB" "x", mkRow 2 "770002" "BrandA" "y"]

/-- A 25-row table. -/
def db25 : List Product := (List.range 25).map (fun i => mkRow i "770000" "B" "n")

/-- The list query with no filters and no pagination. -/
def qNoFilters : ListQuery := ⟨none, none, none, none, none, none⟩

/-- The list query asking for page 2 with page size 10. -/
def qPage2 : ListQuery := ⟨none, none, none, none, some 2, some 10⟩

/-- A create request that omits the available field. -/
def inputNoAvailable : ProductInput :=
  { ean := some "771000", name := some "Prod", brand := some "BrandD",
    original_name := none, page := none, url := none, description := none,
    category := none, type := none, variety := none, image_filename := none,
    available := none, comments := none }

/-! ## Order lemmas for the row comparator -/

theorem cmpChars_swap (x y : List Char) :
    cmpChars y x = (cmpChars x y).swap := by
  induction x generalizing y with
  | nil => cases y <;> simp [cmpChars, Ordering.swap]
  | cons a as ih =>
    cases y with
    | nil => simp [cmpChars, Ordering.swap]
    | cons b bs =>
      by_cases h1 : a.toNat < b.toNat
      · simp [cmpChars, h1, Nat.lt_asymm h1, Ordering.swap]
      · by_cases h2 : b.toNat < a.toNat
        · simp [cmpChars, h1, h2, Ordering.swap]
        · simp [cmpChars, h1, h2, ih bs]

theorem cmpChars_eq_congr {x y : List Char} (h : cmpChars x y = .eq) (z : List Char) :
    cmpChars x z = cmpChars y z := by
  induction x generalizing y z with
  | nil =>
    cases y with
    | nil => rfl
    | cons b bs => simp [cmpChars] at h
  | cons a as ih =>
    cases y with
    | nil => simp [cmpChars] at h
    | cons b bs =>
      by_cases h1 : a.toNat < b.toNat
      · simp [cmpChars, h1] at h
      · by_cases h2 : b.toNat < a.toNat
        · simp [cmpChars, h1, h2] at h
        · have hab : a.toNat = b.toNat := by omega
          simp only [cmpChars, h1, h2, if_neg, if_false] at h
          cases z with
          | nil => rfl
          | cons c cs =>
            simp only [cmpChars, hab]
            by_cases h3 : b.toNat < c.toNat
            · simp [h3]
            · by_cases h4 : c.toNat < b.toNat
              · simp [h3, h4]
              · simp [h3, h4, ih h cs]

theorem cmpChars_lt_trans {x y z : List Char}
    (hxy : cmpChars x y = .lt) (hyz : cmpChars y z = .lt) :
    cmpChars x z = .lt := by
  induction x generalizing y z with
  | nil =>
    cases z with
    | nil =>
      cases y with
      | nil => simp [cmpChars] at hxy
      | cons b bs => simp [cmpChars] at hyz
    | cons c cs => simp [cmpChars]
  | cons a as ih =>
    cases y with
    | nil => simp [cmpChars] at hxy
    | cons b bs =>
      cases z with
      | nil => simp [cmpChars] at hyz
      | cons c cs =>
        by_cases h1 : a.toNat < b.toNat
        · by_cases h3 : b.toNat < c.toNat
          · have : a.toNat < c.toNat := Nat.lt_trans h1 h3
            simp [cmpChars, this]
          · by_cases h4 : c.toNat < b.toNat
            · simp [cmpChars, h3, h4] at hyz
            · have : a.toNat < c.toNat := by omega
              simp [cmpChars, this]
        · by_cases h2 : b.toNat < a.toNat
          · simp [cmpChars, h1, h2] at hxy
          · have hab : a.toNat = b.toNat := by omega
            simp only [cmpChars, h1, h2, if_neg, if_false] at hxy
            by_cases h3 : b.toNat < c.toNat
            · have : a.toNat < c.toNat := by omega
              simp [cmpChars, this]
            · by_cases h4 : c.toNat < b.toNat
              · simp [cmpChars, h3, h4] at hyz
              · have h5 : ¬ a.toNat < c.toNat := by omega
                have h6 : ¬ c.toNat < a.toNat := by omega
                simp only [cmpChars, h3, h4, if_neg, if_false] at hyz
                simp [cmpChars, h5, h6, ih hxy hyz]

theorem cmpOptStr_swap (x y : Option String) :
    cmpOptStr y x = (cmpOptStr x y).swap := by
  cases x <;> cases y
  · rfl
  · rfl
  · rfl
  · exact cmpChars_swap _ _

theorem cmpOptStr_eq_congr {x y : Option String} (h : cmpOptStr x y = .eq)
    (z : Option String) : cmpOptStr x z = cmpOptStr y z := by
  match x, y with
  | none, none => rfl
  | none, some b => exact absurd h (by simp [cmpOptStr])
  | some a, none => exact absurd h (by simp [cmpOptStr])
  | some a, some b =>
    have h2 : cmpChars a.toList b.toList = .eq := h
    cases z with
    | none => rfl
    | some c => exact cmpChars_eq_congr h2 c.toList

theorem cmpOptStr_eq_congr_right {x y : Option String} (h : cmpOptStr x y = .eq)
    (z : Option String) : cmpOptStr z x = cmpOptStr z y := by
  rw [cmpOptStr_swap x z, cmpOptStr_swap y z, cmpOptStr_eq_congr h z]

theorem cmpOptStr_lt_trans {x y z : Option String}
    (hxy : cmpOptStr x y = .lt) (hyz : cmpOptStr y z = .lt) :
    cmpOptStr x z = .lt := by
  match x, y, z with
  | none, none, _ => exact absurd hxy (by simp [cmpOptStr])
  | none, some b, none => exact absurd hyz (by simp [cmpOptStr])
  | none, some b, some c => rfl
  | some a, none, _ => exact absurd hxy (by simp [cmpOptStr])
  | some a, some b, none => exact absurd hyz (by simp [cmpOptStr])
  | some a, some b, some c =>
    exact cmpChars_lt_trans (x := a.toList) (y := b.toList) (z := c.toList) hxy hyz

theorem productKeyCmp_brand_lt {p q : Product}
    (h : cmpOptStr p.brand q.brand = .lt) : productKeyCmp p q = .lt := by
  unfold productKeyCmp; rw [h]

theorem productKeyCmp_brand_gt {p q : Product}
    (h : cmpOptStr p.brand q.brand = .gt) : productKeyCmp p q = .gt := by
  unfold productKeyCmp; rw [h]

theorem productKeyCmp_brand_eq {p q : Product}
    (h : cmpOptStr p.brand q.brand = .eq) :
    productKeyCmp p q = cmpOptStr p.name q.name := by
  unfold productKeyCmp; rw [h]

theorem productKeyCmp_swap (p q : Product) :
    productKeyCmp q p = (productKeyCmp p q).swap := by
  unfold productKeyCmp
  rw [cmpOptStr_swap p.brand q.brand, cmpOptStr_swap p.name q.name]
  rcases cmpOptStr p.brand q.brand with _ | _ | _ <;> rfl

theorem productKeyCmp_eq_congr {p q : Product} (h : productKeyCmp p q = .eq)
    (r : Product) : productKeyCmp p r = productKeyCmp q r := by
  rcases hb : cmpOptStr p.brand q.brand with _ | _ | _
  · rw [productKeyCmp_brand_lt hb] at h; exact absurd h (by decide)
  · have hn : cmpOptStr p.name q.name = .eq := by
      rw [productKeyCmp_brand_eq hb] at h; exact h
    unfold productKeyCmp
    rw [cmpOptStr_eq_congr hb r.brand, cmpOptStr_eq_congr hn r.name]
  · rw [productKeyCmp_brand_gt hb] at h; exact absurd h (by decide)

theorem productKeyCmp_eq_congr_right {q r : Product} (h : productKeyCmp q r = .eq)
    (p : Product) : productKeyCmp p q = productKeyCmp p r := by
  rw [productKeyCmp_swap q p, productKeyCmp_swap r p, productKeyCmp_eq_congr h p]

theorem productKeyCmp_lt_trans {p q r : Product}
    (hpq : productKeyCmp p q = .lt) (hqr : productKeyCmp q r = .lt) :
    productKeyCmp p r = .lt := by
  rcases hb1 : cmpOptStr p.brand q.brand with _ | _ | _
  · rcases hb2 : cmpOptStr q.brand r.brand with _ | _ | _
    · exact productKeyCmp_brand_lt (cmpOptStr_lt_trans hb1 hb2)
    · refine productKeyCmp_brand_lt ?_
      rw [← cmpOptStr_eq_congr_right hb2 p.brand]; exact hb1
    · rw [productKeyCmp_brand_gt hb2] at hqr; exact absurd hqr (by decide)
  · rcases hb2 : cmpOptStr q.brand r.brand with _ | _ | _
    · refine productKeyCmp_brand_lt ?_
      rw [cmpOptStr_eq_congr hb1 r.brand]; exact hb2
    · have n1 : cmpOptStr p.name q.name = .lt := by
        rw [productKeyCmp_brand_eq hb1] at hpq; exact hpq
      have n2 : cmpOptStr q.name r.name = .lt := by
        rw [productKeyCmp_brand_eq hb2] at hqr; exact hqr
      have hbr : cmpOptStr p.brand r.brand = .eq := by
        rw [cmpOptStr_eq_congr hb1 r.brand]; exact hb2
      rw [productKeyCmp_brand_eq hbr]
      exact cmpOptStr_lt_trans n1 n2
    · rw [productKeyCmp_brand_gt hb2] at hqr; exact absurd hqr (by decide)
  · rw [productKeyCmp_brand_gt hb1] at hpq; exact absurd hpq (by decide)

theorem byBrandName_total (p q : Product) : byBrandName p q ∨ byBrandName q p := by
  unfold byBrandName
  rw [productKeyCmp_swap p q]
  cases h : productKeyCmp p q <;> decide

theorem byBrandName_trans {p q r : Product}
    (hpq : byBrandName p q) (hqr : byBrandName q r) : byBrandName p r := by
  unfold byBrandName at hpq hqr ⊢
  rcases h1 : productKeyCmp p q with _ | _ | _
  · rcases h2 : productKeyCmp q r with _ | _ | _
    · rw [productKeyCmp_lt_trans h1 h2]; decide
    · rw [← productKeyCmp_eq_congr_right h2 p, h1]; decide
    · exact absurd h2 hqr
  · rw [productKeyCmp_eq_congr h1 r]; exact hqr
  · exact absurd h1 hpq

theorem whereBrand_eq_specBrand (q : ListQuery) (p : Product) :
    whereBrand q p = specBrand q p := by
  unfold whereBrand specBrand strTruthy
  cases q.brand with
  | none => simp
  | some s =>
    by_cases h1 : s = "" <;> by_cases h2 : s = "all" <;>
      simp [h1, h2]

theorem whereCategory_eq_specCategory (q : ListQuery) (p : Product) :
    whereCategory q p = specCategory q p := by
  unfold whereCategory specCategory strTruthy
  cases q.category with
  | none => simp
  | some s =>
    by_cases h1 : s = "" <;> by_cases h2 : s = "all" <;>
      simp [h1, h2]

theorem whereAvailable_eq_specAvailable (q : ListQuery) (p : Product) :
    whereAvailable q p = specAvailable q p := by
  unfold whereAvailable specAvailable
  cases q.available with
  | none => simp
  | some s =>
    by_cases h2 : s = "all" <;> simp [h2]

theorem whereSearch_eq_specSearch (q : ListQuery) (p : Product) :
    whereSearch q p = specSearch q p := by
  unfold whereSearch specSearch strTruthy jsOrDefault
  cases q.search with
  | none => simp
  | some s =>
    by_cases h1 : s = "" <;> simp [h1]

theorem matchesWhere_eq_specMatches (q : ListQuery) (p : Product) :
    matchesWhere q p = specMatches q p := by
  unfold matchesWhere specMatches
  rw [whereBrand_eq_specBrand, whereCategory_eq_specCategory,
    whereAvailable_eq_specAvailable, whereSearch_eq_specSearch]

theorem pred_div_eq_ceilDiv {b : Nat} (hb : 1 ≤ b) (a : Nat) :
    (a + b - 1) / b = ceilDiv a b := by
  unfold ceilDiv
  rcases Nat.eq_zero_or_pos (a % b) with h | h
  · obtain ⟨k, rfl⟩ := Nat.dvd_of_mod_eq_zero h
    have h1 : b * k + b - 1 = b * k + (b - 1) := Nat.add_sub_assoc hb (b * k)
    rw [h1, Nat.mul_add_div (by omega), Nat.div_eq_of_lt (by omega),
      Nat.mul_mod_right, if_pos rfl, Nat.mul_div_cancel_left k (by omega)]
  · have key := Nat.div_add_mod a b
    have hrb : a % b < b := Nat.mod_lt _ (by omega)
    have ha : a + b - 1 = b * (a / b + 1) + (a % b - 1) := by
      conv_lhs => rw [← key]
      rw [Nat.mul_succ]
      generalize b * (a / b) = m
      omega
    rw [ha, Nat.mul_add_div (show 0 < b by omega),
      Nat.div_eq_of_lt (show a % b - 1 < b by omega),
      if_neg (show ¬ a % b = 0 by omega)]

theorem findByPk_updateRowById {db : List Product} {id : Nat} {u : Product}
    (hu : u.id = id) (h : (findByPk db id).isSome) :
    findByPk (updateRowById db id u) id = some u := by
  induction db with
  | nil => simp [findByPk] at h
  | cons a t ih =>
    by_cases ha : (a.id == id) = true
    · unfold findByPk updateRowById
      rw [List.map_cons, if_pos ha]
      exact List.find?_cons_of_pos _ (by simp [hu])
    · have step : List.find? (fun p : Product => p.id == id) (a :: t) =
          List.find? (fun p : Product => p.id == id) t :=
        List.find?_cons_of_neg _ ha
      have ht : (findByPk t id).isSome := by
        unfold findByPk at h
        rwa [step] at h
      unfold findByPk updateRowById
      rw [List.map_cons, if_neg ha]
      exact Eq.trans (List.find?_cons_of_neg _ ha) (ih ht)

/-! ## Claims about the access gate and authentication endpoints -/

/-- C1: on every protected request the Access Gate behaves as the
four-branch function: with no session cookie present (no truthy cookie
value) it rejects with 401; with a cookie present but the stored
access-code hash absent from configuration it refuses with the 500
configuration error and never authorizes; with a cookie present that
fails hash verification it rejects with 401; with a cookie that verifies
against the stored hash the request proceeds to the downstream
handler. -/
theorem accessGate_fourBranch (cmp : BcryptCompare) (cookie hash : Option String) :
    (strTruthy cookie = false →
      requireAuth cmp cookie hash =
        .respond 401 false "No autorizado. Por favor, inicia sesión.")
    ∧ (∀ tok, cookie = some tok → tok ≠ "" → strTruthy hash = false →
        requireAuth cmp cookie hash =
          .respond 500 false "Error de configuración del servidor"
        ∧ requireAuth cmp cookie hash ≠ .proceed)
    ∧ (∀ tok h, cookie = some tok → tok ≠ "" → hash = some h → h ≠ "" →
        cmp tok h = .ok false →
        requireAuth cmp cookie hash =
          .respond 401 false "Sesión inválida. Por favor, inicia sesión nuevamente.")
    ∧ (∀ tok h, cookie = some tok → tok ≠ "" → hash = some h → h ≠ "" →
        cmp tok h = .ok true →
        requireAuth cmp cookie hash = .proceed) := by
  refine ⟨?_, ?_, ?_, ?_⟩
  · intro hfalsy
    cases cookie with
    | none => rfl
    | some tok =>
      have htok : tok = "" := by simpa [strTruthy] using hfalsy
      subst htok
      rfl
  · rintro tok rfl htok hfalsy
    have heq : requireAuth cmp (some tok) hash =
        .respond 500 false "Error de configuración del servidor" := by
      cases hash with
      | none => simp [requireAuth, htok]
      | some h =>
        have hh : h = "" := by simpa [strTruthy] using hfalsy
        subst hh
        simp [requireAuth, htok]
    exact ⟨heq, by simp [heq]⟩
  · rintro tok h rfl htok rfl hh hcmp
    simp [requireAuth, htok, hh, hcmp]
  · rintro tok h rfl htok rfl hh hcmp
    simp [requireAuth, htok, hh, hcmp]

/-- C1 witness: all four branches of the gate observed on concrete
inputs through the theorem. -/
theorem accessGate_fourBranch_witness :
    requireAuth cmpFixed none (some "hash") =
      .respond 401 false "No autorizado. Por favor, inicia sesión."
    ∧ requireAuth cmpFixed (some "codigo") none =
        .respond 500 false "Error de configuración del servidor"
    ∧ requireAuth cmpFixed (some "otro") (some "hash") =
        .respond 401 false "Sesión inválida. Por favor, inicia sesión nuevamente."
    ∧ requireAuth cmpFixed (some "codigo") (some "hash") = .proceed := by
  refine ⟨?_, ?_, ?_, ?_⟩
  · exact (accessGate_fourBranch cmpFixed none (some "hash")).1 rfl
  · exact ((accessGate_fourBranch cmpFixed (some "codigo") none).2.1 "codigo" rfl
      (by decide) rfl).1
  · exact (accessGate_fourBranch cmpFixed (some "otro") (some "hash")).2.2.1 "otro"
      "hash" rfl (by decide) rfl (by decide) rfl
  · exact (accessGate_fourBranch cmpFixed (some "codigo") (some "hash")).2.2.2 "codigo"
      "hash" rfl (by decide) rfl (by decide) rfl

/-- C10: the authentication-check endpoint never answers an error status:
it always responds 200, its authenticated flag is true exactly when a
session cookie is present and verifies against the configured hash, and
in particular a missing hash configuration yields authenticated false
here while the Access Gate answers the 500 configuration error. -/
theorem checkAuth_neverErrors (cmp : BcryptCompare) (cookie hash : Option String) :
    (checkAuth cmp cookie hash).status = 200
    ∧ ((checkAuth cmp cookie hash).authenticated = true ↔
        ∃ tok h, cookie = some tok ∧ hash = some h ∧ tok ≠ "" ∧ h ≠ "" ∧
          cmp tok h = .ok true)
    ∧ (∀ tok, cookie = some tok → tok ≠ "" → hash = none →
        (checkAuth cmp cookie hash).authenticated = false ∧
        requireAuth cmp cookie hash =
          .respond 500 false "Error de configuración del servidor") := by
  refine ⟨?_, ⟨?_, ?_⟩, ?_⟩
  · rcases cookie with _ | tok <;> rcases hash with _ | h
    · rfl
    · rfl
    · rfl
    · simp only [checkAuth]
      by_cases hif : (decide (tok = "") || decide (h = "")) = true
      · rw [if_pos hif]
      · rw [if_neg hif]
        rcases hcmp : cmp tok h with e | b
        · rfl
        · cases b <;> rfl
  · intro hauth
    rcases cookie with _ | tok
    · exact absurd hauth (by simp [checkAuth])
    · rcases hash with _ | h
      · exact absurd hauth (by simp [checkAuth])
      · by_cases htok : tok = ""
        · subst htok; exact absurd hauth (by simp [checkAuth])
        · by_cases hh : h = ""
          · subst hh; exact absurd hauth (by simp [checkAuth])
          · rcases hcmp : cmp tok h with e | b
            · exact absurd hauth (by simp [checkAuth, htok, hh, hcmp])
            · cases b
              · exact absurd hauth (by simp [checkAuth, htok, hh, hcmp])
              · exact ⟨tok, h, rfl, rfl, htok, hh, hcmp⟩
  · rintro ⟨tok, h, rfl, rfl, htok, hh, hcmp⟩
    simp [checkAuth, htok, hh, hcmp]
  · rintro tok rfl htok rfl
    exact ⟨rfl, by simp [requireAuth, htok]⟩

/-- C10 witness: a verifying cookie is reported authenticated, and a
missing hash configuration is reported authenticated false, on concrete
inputs through the theorem. -/
theorem checkAuth_neverErrors_witness :
    (checkAuth cmpFixed (some "codigo") (some "hash")).authenticated = true
    ∧ (checkAuth cmpFixed (some "codigo") none).authenticated = false := by
  constructor
  · exact (checkAuth_neverErrors cmpFixed (some "codigo") (some "hash")).2.1.mpr
      ⟨"codigo", "hash", rfl, rfl, by decide, by decide, rfl⟩
  · exact ((checkAuth_neverErrors cmpFixed (some "codigo") none).2.2 "codigo" rfl
      (by decide) rfl).1

/-! ## Claim about the session cookie contract -/

/-- C5: logout clears the session cookie with exactly the attribute set
login used when setting it; in every environment and for every hostname
extraction the whole option records agree, hence so do httpOnly, secure,
sameSite, path and maxAge. -/
theorem logout_clears_with_login_attributes (getDomain : String → String)
    (env : CookieEnv) :
    logoutClearOptions getDomain env = loginCookieOptions getDomain env
    ∧ (logoutClearOptions getDomain env).httpOnly =
        (loginCookieOptions getDomain env).httpOnly
    ∧ (logoutClearOptions getDomain env).secure =
        (loginCookieOptions getDomain env).secure
    ∧ (logoutClearOptions getDomain env).sameSite =
        (loginCookieOptions getDomain env).sameSite
    ∧ (logoutClearOptions getDomain env).path =
        (loginCookieOptions getDomain env).path
    ∧ (logoutClearOptions getDomain env).maxAge =
        (loginCookieOptions getDomain env).maxAge :=
  ⟨rfl, rfl, rfl, rfl, rfl, rfl⟩

/-! ## Claim about the image URL issuer -/

/-- C4: the Image URL Issuer returns null immediately on a null or empty
filename and on an unconfigured bucket, with the result independent of
the signer, hence without contacting the object store; a failing signing
call is caught and degrades to null; and a list response built over an
issuer that always fails still succeeds. -/
theorem imageUrlIssuer_degrades
    (sign : String → String → Nat → Except String String)
    (bucket : String) (expiresIn : Nat) :
    (∀ fOpt, strTruthy fOpt = false →
      ∀ sign2 : String → String → Nat → Except String String,
        getPresignedImageUrl sign2 bucket fOpt expiresIn = none)
    ∧ (∀ f, ∀ sign2 : String → String → Nat → Except String String,
        getPresignedImageUrl sign2 "" (some f) expiresIn = none)
    ∧ (∀ f msg, sign bucket f expiresIn = .error msg →
        getPresignedImageUrl sign bucket (some f) expiresIn = none)
    ∧ (∀ db q, (getAllProducts
          (fun f => getPresignedImageUrl sign bucket (some f) expiresIn) db q).success
        = true) := by
  refine ⟨?_, ?_, ?_, ?_⟩
  · rintro fOpt hfalsy sign2
    rcases fOpt with _ | f
    · rfl
    · have hf : f = "" := by simpa [strTruthy] using hfalsy
      subst hf
      simp [getPresignedImageUrl]
  · intro f sign2
    by_cases hf : f = "" <;> simp [getPresignedImageUrl, hf]
  · intro f msg hsign
    by_cases hf : f = "" <;> by_cases hb : bucket = "" <;>
      simp [getPresignedImageUrl, hf, hb, hsign]
  · intro db q
    rfl

/-- C4 witness: null filename, empty filename, unconfigured bucket and an
unreachable store all observed to yield null on concrete inputs through
the theorem. -/
theorem imageUrlIssuer_degrades_witness :
    getPresignedImageUrl signUnreachable "bucket" none 3600 = none
    ∧ getPresignedImageUrl signUnreachable "bucket" (some "") 3600 = none
    ∧ getPresignedImageUrl signUnreachable "" (some "a.webp") 3600 = none
    ∧ getPresignedImageUrl signUnreachable "bucket" (some "missing.webp") 3600 = none := by
  refine ⟨?_, ?_, ?_, ?_⟩
  · exact (imageUrlIssuer_degrades signUnreachable "bucket" 3600).1 none rfl
      signUnreachable
  · exact (imageUrlIssuer_degrades signUnreachable "bucket" 3600).1 (some "")
      (by decide) signUnreachable
  · exact (imageUrlIssuer_degrades signUnreachable "" 3600).2.1 "a.webp" signUnreachable
  · exact (imageUrlIssuer_degrades signUnreachable "bucket" 3600).2.2.1 "missing.webp"
      "network error" rfl

/-! ## Claims about the list query -/

/-- C2: the rows a list query returns are exactly those satisfying the
conjunction of the brand, category, availability and search conjuncts as
the specification words them, and they always come ordered by brand
ascending then name ascending, under every filter combination including
no filters; the exactness statement is about the selection before the
optional pagination window. -/
theorem listQuery_filterAndOrder (sign : String → Option String) (db : List Product)
    (q : ListQuery) :
    List.Sorted byBrandName ((getAllProducts sign db q).data.map Prod.fst)
    ∧ ((q.page = none ∨ q.limit = none) →
        ∀ p, p ∈ (getAllProducts sign db q).data.map Prod.fst ↔
          (p ∈ db ∧ specMatches q p = true)) := by
  haveI : IsTotal Product byBrandName := ⟨byBrandName_total⟩
  haveI : IsTrans Product byBrandName := ⟨fun _ _ _ => byBrandName_trans⟩
  have hdata : (getAllProducts sign db q).data.map Prod.fst = pagedRows db q := by
    simp [getAllProducts, withImageUrl, List.map_map, Function.comp_def]
  have hsortedSel : List.Sorted byBrandName (selectedRows db q) :=
    List.sorted_insertionSort byBrandName _
  constructor
  · rw [hdata]
    unfold pagedRows
    rcases q.page with _ | pageNumber
    · exact hsortedSel
    · rcases q.limit with _ | limitNumber
      · exact hsortedSel
      · exact List.Pairwise.sublist
          ((List.take_sublist _ _).trans (List.drop_sublist _ _)) hsortedSel
  · intro hq p
    have hsel : pagedRows db q = selectedRows db q := by
      unfold pagedRows
      rcases hp : q.page with _ | pageNumber
      · rfl
      · rcases hl : q.limit with _ | limitNumber
        · rfl
        · rcases hq with hcontra | hcontra
          · rw [hp] at hcontra; cases hcontra
          · rw [hl] at hcontra; cases hcontra
    rw [hdata, hsel]
    unfold selectedRows sortRows
    rw [List.Perm.mem_iff (List.perm_insertionSort byBrandName _), List.mem_filter,
      matchesWhere_eq_specMatches]

/-- C2 witness: with no filters, a concrete row of the table is among the
returned rows, through the theorem. -/
theorem listQuery_filterAndOrder_witness :
    mkRow 2 "770002" "BrandA" "y" ∈
      (getAllProducts signNone dbTwo qNoFilters).data.map Prod.fst :=
  ((listQuery_filterAndOrder signNone dbTwo qNoFilters).2 (Or.inl rfl)
    (mkRow 2 "770002" "BrandA" "y")).mpr ⟨by decide, by decide⟩

/-- C3: when both page and limit are supplied (1-indexed page, limit at
least one), the returned window starts at offset (page - 1) * limit and
holds at most limit rows, and the pagination block reports the
pre-pagination matching row count as total and its ceiling division by
limit as totalPages. -/
theorem listQuery_pagination (sign : String → Option String) (db : List Product)
    (q : ListQuery) (pageNumber limitNumber : Nat)
    (hp : q.page = some pageNumber) (hl : q.limit = some limitNumber)
    (hp1 : 1 ≤ pageNumber) (hl1 : 1 ≤ limitNumber) :
    (getAllProducts sign db q).data =
      (((selectedRows db q).drop ((pageNumber - 1) * limitNumber)).take
        limitNumber).map (withImageUrl sign)
    ∧ (getAllProducts sign db q).data.length ≤ limitNumber
    ∧ (getAllProducts sign db q).pagination =
        some { page := pageNumber, limit := limitNumber,
               total := totalCount db q,
               totalPages := ceilDiv (totalCount db q) limitNumber } := by
  have hpaged : pagedRows db q =
      ((selectedRows db q).drop ((pageNumber - 1) * limitNumber)).take limitNumber := by
    unfold pagedRows
    rw [hp, hl]
  refine ⟨?_, ?_, ?_⟩
  · simp only [getAllProducts]
    rw [hpaged]
  · simp only [getAllProducts, List.length_map]
    rw [hpaged]
    exact List.length_take_le _ _
  · simp only [getAllProducts]
    rw [hp, hl]
    exact congrArg
      (fun t => some (Pagination.mk pageNumber limitNumber (totalCount db q) t))
      (pred_div_eq_ceilDiv hl1 (totalCount db q))

/-- C3 witness: over 25 matching rows, page 2 with limit 10 returns 10
rows with total 25 and totalPages 3, through the theorem. -/
theorem listQuery_pagination_witness :
    (getAllProducts signNone db25 qPage2).data.length = 10
    ∧ (getAllProducts signNone db25 qPage2).pagination =
        some { page := 2, limit := 10, total := 25, totalPages := 3 } := by
  have h := listQuery_pagination signNone db25 qPage2 2 10 rfl rfl (by decide) (by decide)
  refine ⟨?_, ?_⟩
  · rw [h.1]
    decide
  · rw [h.2.2]
    decide

/-! ## Claims about the row operations -/

/-- C6: on an existing product id, toggleAvailability flips the persisted
available boolean, and applying it twice returns the stored row to its
original available value. -/
theorem toggleAvailability_involution (db : List Product) (id : Nat) (p : Product)
    (h : findByPk db id = some p) :
    ∃ db1 p1, toggleAvailability db id = .ok (db1, p1)
      ∧ p1.available = !p.available
      ∧ findByPk db1 id = some p1
      ∧ ∃ db2 p2, toggleAvailability db1 id = .ok (db2, p2)
          ∧ p2.available = p.available
          ∧ findByPk db2 id = some p2 := by
  have hpid : p.id = id := by simpa using List.find?_some h
  have hfind1 : findByPk (updateRowById db id { p with available := !p.available }) id
      = some { p with available := !p.available } :=
    findByPk_updateRowById hpid (by rw [h]; rfl)
  have htog1 : toggleAvailability db id =
      .ok (updateRowById db id { p with available := !p.available },
        { p with available := !p.available }) := by
    unfold toggleAvailability
    rw [h]
  refine ⟨_, _, htog1, rfl, hfind1, ?_⟩
  have hfind2 : findByPk (updateRowById
        (updateRowById db id { p with available := !p.available }) id
        { p with available := !(!p.available) }) id
      = some { p with available := !(!p.available) } :=
    findByPk_updateRowById hpid (by rw [hfind1]; rfl)
  have htog2 : toggleAvailability
        (updateRowById db id { p with available := !p.available }) id =
      .ok (updateRowById
          (updateRowById db id { p with available := !p.available }) id
          { p with available := !(!p.available) },
        { p with available := !(!p.available) }) := by
    unfold toggleAvailability
    rw [hfind1]
  exact ⟨_, _, htog2, Bool.not_not p.available, hfind2⟩

/-- C6 witness: the double toggle observed on a concrete one-row table,
through the theorem. -/
theorem toggleAvailability_involution_witness :
    ∃ db1 p1, toggleAvailability dbOne 7 = .ok (db1, p1)
      ∧ p1.available = !(mkRow 7 "770007" "BrandC" "z").available
      ∧ findByPk db1 7 = some p1
      ∧ ∃ db2 p2, toggleAvailability db1 7 = .ok (db2, p2)
          ∧ p2.available = (mkRow 7 "770007" "BrandC" "z").available
          ∧ findByPk db2 7 = some p2 :=
  toggleAvailability_involution dbOne 7 (mkRow 7 "770007" "BrandC" "z") (by decide)

/-- C7: on an existing product id, setComments with the empty string and
with an absent value both store NULL, never the empty string, and a
non-empty text is stored as given. -/
theorem setComments_normalizes (db : List Product) (id : Nat) (p : Product)
    (h : findByPk db id = some p) :
    (∃ db1 p1, updateComments db id (some "") = .ok (db1, p1) ∧ p1.comments = none)
    ∧ (∃ db1 p1, updateComments db id none = .ok (db1, p1) ∧ p1.comments = none)
    ∧ (∀ s, s ≠ "" → ∃ db1 p1, updateComments db id (some s) = .ok (db1, p1)
        ∧ p1.comments = some s) := by
  refine ⟨?_, ?_, ?_⟩
  · exact ⟨updateRowById db id { p with comments := none },
      { p with comments := none },
      by unfold updateComments; rw [h]; rfl, rfl⟩
  · exact ⟨updateRowById db id { p with comments := none },
      { p with comments := none },
      by unfold updateComments; rw [h]; rfl, rfl⟩
  · intro s hs
    exact ⟨updateRowById db id { p with comments := some s },
      { p with comments := some s },
      by unfold updateComments; rw [h]; simp [strTruthy, hs], rfl⟩

/-- C7 witness: empty, absent and non-empty comment updates observed on a
concrete one-row table, through the theorem. -/
theorem setComments_normalizes_witness :
    (∃ db1 p1, updateComments dbOne 7 (some "") = .ok (db1, p1) ∧ p1.comments = none)
    ∧ (∃ db1 p1, updateComments dbOne 7 none = .ok (db1, p1) ∧ p1.comments = none)
    ∧ (∀ s, s ≠ "" → ∃ db1 p1, updateComments dbOne 7 (some s) = .ok (db1, p1)
        ∧ p1.comments = some s) :=
  setComments_normalizes dbOne 7 (mkRow 7 "770007" "BrandC" "z") (by decide)

/-- C8: the available column is declared non-nullable with default true;
a freshly created product that omits the field holds true; and create,
update and toggleAvailability each leave available a definite boolean
value. -/
theorem available_never_null :
    availableColumn.allowNull = false
    ∧ availableColumn.defaultValue = some true
    ∧ (∀ id inp, inp.available = none → (buildRow id inp).available = true)
    ∧ (∀ db inp db1 row, createProduct db inp = .ok (db1, row) →
        inp.available = none → row.available = true)
    ∧ (∀ p inp, (updateRow p inp).available = inp.available.getD p.available)
    ∧ (∀ db id p, findByPk db id = some p →
        ∃ db1 p1, toggleAvailability db id = .ok (db1, p1) ∧
          p1.available = !p.available) := by
  refine ⟨rfl, rfl, ?_, ?_, ?_, ?_⟩
  · intro id inp hnone
    simp [buildRow, hnone]
  · intro db inp db1 row hok hnone
    unfold createProduct at hok
    split at hok
    · exact absurd hok (by simp)
    · split at hok
      · exact absurd hok (by simp)
      · cases hok
        simp [buildRow, hnone]
  · intro p inp
    rfl
  · intro db id p h
    exact ⟨updateRowById db id { p with available := !p.available },
      { p with available := !p.available },
      by unfold toggleAvailability; rw [h], rfl⟩

/-- C8 witness: a create omitting available yields true and a toggle
flips the stored boolean, on concrete inputs through the theorem. -/
theorem available_never_null_witness :
    (buildRow 1 inputNoAvailable).available = true
    ∧ ∃ db1 p1, toggleAvailability dbOne 7 = .ok (db1, p1) ∧
        p1.available = !(mkRow 7 "770007" "BrandC" "z").available := by
  constructor
  · exact available_never_null.2.2.1 1 inputNoAvailable rfl
  · exact available_never_null.2.2.2.2.2 dbOne 7 (mkRow 7 "770007" "BrandC" "z")
      (by decide)

/-! ## Claim about the response envelopes -/

/-- C9 counterexample: the brands list response carries no count field,
refuting on a concrete table the claim that every collection response of
the API carries one. -/
theorem collectionCount_counterexample :
    ¬ ((getBrands dbOne).count.isSome = true
        ∧ (getCategories dbOne).count.isSome = true) := by
  decide

/-- C9 amended: the product list response carries a count equal to the
number of returned rows, while the brands and categories responses carry
only success and data, with no count field. -/
theorem collectionCount_amended (sign : String → Option String) (db : List Product)
    (q : ListQuery) :
    (getAllProducts sign db q).count = (getAllProducts sign db q).data.length
    ∧ (getBrands db).count = none
    ∧ (getCategories db).count = none :=
  ⟨rfl, rfl, rfl⟩

end LaCosta
